import Mathlib

/-!
Verification development for the SkyrimNet benchmarking log parsers.

The definitions below are a shallow embedding of the Python sources
`openrouter_request_parser.py` and `openrouter_response_parser.py`:

* the multi-tier classifier `OpenRouterRequestParser.find_matching_prompt_type`
  (variant matching, fixed-pattern matching, optional fuzzy matching,
  signature-prefix fallback);
* the log segmentation loop of `process_log_file` (request side), and the
  response-side loop of `OpenRouterResponseParser.process_log_file`;
* the payload extraction pipeline `parse_json_entry` (strict `json.loads`
  followed by the `_manual_json_parse` recovery line scan) and
  `extract_messages_content`;
* the timestamp arithmetic `calculate_response_time`.

Modelling conventions: Python strings are Lean `String`s (slicing by code
points matches `String.take`/`String.drop`); Python dicts loaded from JSON
are association lists; machine floats produced by
`timedelta.total_seconds()` are modelled exactly as rationals; functions
that can raise or return `None` return `Option`.  `str.lower` is modelled
by per-character `Char.toLower` (ASCII case folding; all signature
material in the repository is ASCII).
-/

/-- Auxiliary scan for the substring test: does `pat` occur in the
haystack at any position? -/
def containsAux (pat : List Char) : List Char → Bool
  | [] => pat.isEmpty
  | c :: rest => pat.isPrefixOf (c :: rest) || containsAux pat rest

/-- Python `needle in haystack` substring test on strings. -/
def strContains (hay pat : String) : Bool :=
  containsAux pat.toList hay.toList

/-- Python `s.split(pat, 1)` when `pat` occurs in `s`: split at the first
occurrence of `pat`, returning the text before and after it.  Returns
`none` when `pat` does not occur. -/
def splitOnceAux (pat : List Char) : List Char → List Char → Option (List Char × List Char)
  | acc, cs =>
    if pat.isPrefixOf cs then some (acc.reverse, cs.drop pat.length)
    else
      match cs with
      | [] => none
      | c :: rest => splitOnceAux pat (c :: acc) rest

/-- String version of `splitOnceAux`, starting from the left end. -/
def splitOnce (s pat : String) : Option (String × String) :=
  (splitOnceAux pat.toList [] s.toList).map fun pr =>
    (String.mk pr.1, String.mk pr.2)


/-! ## Python string primitives

The Lean core `String` functions are defined through iterators and
well-founded recursion, which evaluate poorly inside the kernel; the
modelled code therefore uses the following structurally recursive
equivalents, each the direct meaning of the Python operation named in
its doc comment.  All of them work on the code-point list `String.data`,
matching Python semantics (indexing and slicing by code point). -/

/-- Python `str.lower`, code point by code point (ASCII folding). -/
def pyLower (s : String) : String :=
  String.mk (s.data.map Char.toLower)

/-- Python slicing `s[:n]`. -/
def pyTake (s : String) (n : ℕ) : String :=
  String.mk (s.data.take n)

/-- Python slicing `s[n:]`. -/
def pyDrop (s : String) (n : ℕ) : String :=
  String.mk (s.data.drop n)

/-- Python slicing `s[:-n]` for positive `n`. -/
def pyDropRight (s : String) (n : ℕ) : String :=
  String.mk (s.data.take (s.data.length - n))

/-- Python `len(s)`. -/
def pyLength (s : String) : ℕ :=
  s.data.length

/-- Python `str.strip()`: whitespace removed from both ends. -/
def pyTrim (s : String) : String :=
  String.mk (((s.data.dropWhile Char.isWhitespace).reverse.dropWhile
    Char.isWhitespace).reverse)

/-- Python `str.startswith`. -/
def pyStartsWith (s p : String) : Bool :=
  p.data.isPrefixOf s.data

/-- Python `str.endswith`. -/
def pyEndsWith (s p : String) : Bool :=
  p.data.isSuffixOf s.data

/-- Split a character list at newlines (Python `str.split` with a
newline separator). -/
def splitNl : List Char → List (List Char)
  | [] => [[]]
  | c :: rest =>
    match splitNl rest with
    | cur :: done => if c = '\n' then [] :: cur :: done else (c :: cur) :: done
    | [] => [[]]

/-- Python `s.split` on a newline. -/
def pySplitLines (s : String) : List String :=
  (splitNl s.data).map String.mk

/-- Concatenate character lists with a separator between them. -/
def interChars (sep : List Char) : List (List Char) → List Char
  | [] => []
  | [x] => x
  | x :: xs => x ++ sep ++ interChars sep xs

/-- Python `sep.join(parts)`. -/
def pyIntercalate (sep : String) (parts : List String) : String :=
  String.mk (interChars sep.data (parts.map String.data))

/-- Python `"".join(parts)`. -/
def pyJoin (parts : List String) : String :=
  pyIntercalate "" parts

/-! ## Classifier data model

A `VariantEntry` models one value of the `prompt_type_variants` mapping
(a JSON dict).  The code reads `patterns` from per-prompt-type entries and
`enabled` / `min_similarity_threshold` from the entry stored under the
top-level key `"fuzzy_matching"`; missing keys fall back to the defaults
used by the corresponding `dict.get` calls.  The field `fuzzyMatching`
represents a nested `"fuzzy_matching"` sub-dict inside a per-prompt-type
entry — the external-format shape described by the specification — which
the code never reads; it is included so that statements about that shape
can be expressed. -/

structure FuzzyConfig where
  enabled : Option Bool := none
  minSimilarityThreshold : Option ℚ := none
deriving DecidableEq, Repr

structure VariantEntry where
  patterns : List String := []
  enabled : Option Bool := none
  minSimilarityThreshold : Option ℚ := none
  fuzzyMatching : Option FuzzyConfig := none
deriving DecidableEq, Repr

abbrev Variants := List (String × VariantEntry)

/-- One value of the `prompt_types` mapping; missing keys are read with
default `""` by the code (`data.get("original_signature", "")` in
spirit; the source uses single-quoted literals). -/
structure PromptTypeData where
  original_signature : String := ""
  simplified_signature : String := ""
deriving DecidableEq, Repr

abbrev PromptTypes := List (String × PromptTypeData)

/-- The read `self.variants.get("fuzzy_matching", ...).get("enabled", False)`. -/
def fuzzy_enabled (variants : Variants) : Bool :=
  match variants.lookup "fuzzy_matching" with
  | some e => e.enabled.getD false
  | none => false

/-- The read `self.variants["fuzzy_matching"].get("min_similarity_threshold", 0.7)`;
the default is also returned when the key is absent (the code only reads
the threshold when the key is present). -/
def fuzzy_threshold (variants : Variants) : ℚ :=
  match variants.lookup "fuzzy_matching" with
  | some e => e.minSimilarityThreshold.getD (7/10)
  | none => 7/10

/-- Tier 1: variant matching.  For each prompt type in iteration order,
return it as soon as one of its `patterns`, lowercased, occurs in the
(lowercased, 800-character) content window. -/
def variant_match (variants : Variants) (window : String) : Option String :=
  variants.findSome? fun pr =>
    if pr.2.patterns.any (fun p => strContains window (pyLower p)) then some pr.1 else none

/-- The built-in fallback table `pattern_matches` of
`find_matching_prompt_type`, verbatim from the source. -/
def pattern_matches : List (String × List String) :=
  [ ("dialogue_response",
      [ "you are roleplaying as",
        "remain completely in character and speak as they would" ]),
    ("player_dialogue",
      [ "you are roleplaying as",
        "you are reacting verbally to a" ]),
    ("player_thoughts",
      [ "you are roleplaying as",
        "you are thinking to yourself about the current situation" ]),
    ("gamemaster_action_selector",
      [ "you are the gamemaster ai for skyrim",
        "acting like a tabletop dungeon master" ]),
    ("evaluate_mood",
      [ "you are an ai mood analyzer for skyrim",
        "determining the emotional state of npcs" ]),
    ("generate_search_query",
      [ "you are a memory search query generator",
        "generate a search query optimized for semantic similarity" ]),
    ("dialogue_speaker_selector",
      [ "you are deciding which single skyrim npc should speak next",
        "identify the npc who would naturally speak next" ]),
    ("native_action_selector",
      [ "you are an expert at determining what action should accompany",
        "you are an expect at determining what action should accompany" ]),
    ("memory_builder",
      [ "you are an ai assistant that summarizes game events into memories",
        "create personalized, first-person memories",
        "you are an expert on the elder scrolls universe" ]),
    ("evaluate_memory_relevance",
      [ "you are an ai assistant that analyzes events in the game skyrim",
        "determine which ones are relevant to form memories" ]),
    ("mood_evaluator",
      [ "you are an ai assistant that analyzes an npc\x27s recent experiences",
        "determine their current mood" ]),
    ("character_profile_update",
      [ "you are an expert at updating character profiles for npcs",
        "update the existing character bio" ]),
    ("dynamic_bio_update",
      [ "you are an expert at updating character biographies",
        "based on recent events and character development" ]),
    ("player_dialogue_target_selector",
      [ "you are an ai decision-maker for skyrim",
        "determining which npcs the player is addressing" ]),
    ("native_dialogue_transformer",
      [ "your task is to transform dialogue to make it more immersive",
        "natural, and fitting for" ]) ]

/-- Tier 2: fixed-pattern matching.  The code counts how many patterns
of a type occur in the window and accepts the first type with a
positive count. -/
def fixed_pattern_match (window : String) : Option String :=
  pattern_matches.findSome? fun pr =>
    if 0 < pr.2.countP (fun p => strContains window p) then some pr.1 else none

/-- `similarity_score`: lowercases both arguments before handing them to
`difflib.SequenceMatcher(None, a, b).ratio()`.  The ratio computation is
a Python-library collaborator, abstracted here as the parameter `sim`. -/
def similarity_score (sim : String → String → ℚ) (a b : String) : ℚ :=
  sim (pyLower a) (pyLower b)

/-- The contribution of one prompt type to the fuzzy fold: both signatures in
order, skipping empty ones, updating the accumulator on
`score > best_score and score >= min_threshold`. -/
def fuzzy_step (sim : String → String → ℚ) (θ : ℚ) (window : String)
    (acc : Option String × ℚ) (pr : String × PromptTypeData) : Option String × ℚ :=
  [pr.2.original_signature, pr.2.simplified_signature].foldl
    (fun acc sig =>
      if sig ≠ "" then
        let score := similarity_score sim (pyTake window 200) (pyTake sig 200)
        if acc.2 < score ∧ θ ≤ score then (some pr.1, score) else acc
      else acc)
    acc

/-- Tier 3: fuzzy matching over all prompt types, starting from
`best_match = None`, `best_score = 0`. -/
def fuzzy_match (sim : String → String → ℚ) (variants : Variants)
    (prompt_types : PromptTypes) (window : String) : Option String :=
  (prompt_types.foldl (fuzzy_step sim (fuzzy_threshold variants) window) (none, 0)).1

/-- Tier 4: signature-prefix fallback.  A signature longer than 30
characters matches when its first (at most 100) characters occur in the
window; the original signature is tried before the simplified one. -/
def signature_match (prompt_types : PromptTypes) (window : String) : Option String :=
  prompt_types.findSome? fun pr =>
    let osig := pyLower pr.2.original_signature
    let ssig := pyLower pr.2.simplified_signature
    if 30 < pyLength osig ∧ strContains window (pyTake osig (min 100 (pyLength osig))) then
      some pr.1
    else if 30 < pyLength ssig ∧ strContains window (pyTake ssig (min 100 (pyLength ssig))) then
      some pr.1
    else none

/-- `OpenRouterRequestParser.find_matching_prompt_type`: the four matching
tiers in source order, each consulted only when every earlier tier
produced no match; `none` is the "unknown" outcome. -/
def find_matching_prompt_type (sim : String → String → ℚ) (variants : Variants)
    (prompt_types : PromptTypes) (content : String) : Option String :=
  let window := pyTake (pyLower content) 800
  match variant_match variants window with
  | some t => some t
  | none =>
    match fixed_pattern_match window with
    | some t => some t
    | none =>
      match (if fuzzy_enabled variants then
               fuzzy_match sim variants prompt_types window
             else none) with
      | some t => some t
      | none => signature_match prompt_types window

/-- Lines 390–395 of `process_log_file`: an unmatched content string is
routed to the folder name `"unknown"`. -/
def classify_or_unknown (sim : String → String → ℚ) (variants : Variants)
    (prompt_types : PromptTypes) (content : String) : String :=
  (find_matching_prompt_type sim variants prompt_types content).getD "unknown"

/-- A sample similarity function used to instantiate theorems at concrete
inputs: ratio 1 on equal strings, 0 otherwise. -/
def eq_ratio (a b : String) : ℚ :=
  if a = b then 1 else 0

/-! ## Segmenter

`OpenRouterRequestParser.process_log_file` scans the line list with an
index: a line whose stripped form matches the header pattern opens a
record, and the following lines up to (excluding) the next header line
form its body; lines before the first header are skipped one by one.
`segCore` computes, right to left, the pair (lines below the current
position up to the next header, records at and below the current
position); `segmentRecords` keeps the records.  The header test is the
configurable pattern of the spec, abstracted as a predicate on the raw
line (the source applies its regex to the stripped line). -/

def segCore (hdr : String → Bool) : List String → (List String × List (String × List String))
  | [] => ([], [])
  | l :: ls =>
    if hdr l then ([], (l, (segCore hdr ls).1) :: (segCore hdr ls).2)
    else (l :: (segCore hdr ls).1, (segCore hdr ls).2)

/-- The record sequence produced by the segmentation loop: one record per
header line, paired with the body lines that follow it. -/
def segmentRecords (hdr : String → Bool) (lines : List String) : List (String × List String) :=
  (segCore hdr lines).2

/-! ## Header regular expressions

`request_pattern` is `\[([^\]]+)\] Generate.*?\[([^\]]+)\]:` and
`response_pattern` is `\[([^\]]+)\] Generate.*?response \[([^\]]+)\]:`,
both used through `re.match` (anchored at the start of the stripped
line, trailing text allowed).  Both are deterministic: each `[^\]]+`
group must be the maximal nonempty run of non-`]` characters before the
following literal, and the lazy `.*?` selects the earliest position at
which the tail matches; `.` does not match a newline. -/

/-- Match the literal tail `pre` followed by a bracketed group and a
colon at the current position; return the group on success. -/
def matchBracketTail (pre : List Char) (cs : List Char) : Option String :=
  if pre.isPrefixOf cs then
    match cs.drop pre.length with
    | '[' :: rest =>
      let grp := rest.takeWhile (fun c => c ≠ ']')
      match rest.drop grp.length with
      | ']' :: ':' :: _ => if grp.isEmpty then none else some (String.mk grp)
      | _ => none
    | _ => none
  else none

/-- The lazy scan for `.*?` followed by `matchBracketTail`: try each
position from the left, stopping at a newline (which `.` cannot match). -/
def scanBracketTail (pre : List Char) : List Char → Option String
  | [] => matchBracketTail pre []
  | c :: rest =>
    match matchBracketTail pre (c :: rest) with
    | some g => some g
    | none => if c = '\n' then none else scanBracketTail pre rest

/-- Shared shape of the two header patterns: leading `[timestamp]`, the
literal ` Generate`, then a lazily-located `pre` + `[identifier]:` tail.
Returns `(timestamp, identifier)`. -/
def matchHeader (pre : String) (s : String) : Option (String × String) :=
  match s.toList with
  | '[' :: rest =>
    let ts := rest.takeWhile (fun c => c ≠ ']')
    if ts.isEmpty then none
    else
      match rest.drop ts.length with
      | ']' :: after =>
        let gen := " Generate".toList
        if gen.isPrefixOf after then
          (scanBracketTail pre.toList (after.drop gen.length)).map
            (fun id => (String.mk ts, id))
        else none
      | _ => none
  | _ => none

/-- `OpenRouterRequestParser.request_pattern` applied with `re.match`. -/
def request_pattern (s : String) : Option (String × String) :=
  matchHeader "" s

/-- `OpenRouterResponseParser.response_pattern` applied with `re.match`. -/
def response_pattern (s : String) : Option (String × String) :=
  matchHeader "response " s

/-! ## Timestamps

`calculate_response_time` parses both timestamps with
`datetime.strptime(ts, "%Y-%m-%d %H:%M:%S.%f")` and subtracts.  The
CPython `_strptime` regex for this format demands exactly four digits
for `%Y`, one or two digits for `%m`, `%d`, `%H`, `%M`, `%S`, one to six
digits for `%f` (right-padded with zeros to microseconds), allows a run
of whitespace where the format has a space, requires the whole string to
be consumed, and the `datetime` constructor then validates the ranges
(including the day of month).  The difference is modelled exactly as a
rational number of seconds. -/

structure ParsedTs where
  year : ℕ
  month : ℕ
  day : ℕ
  hour : ℕ
  minute : ℕ
  second : ℕ
  microsecond : ℕ
deriving DecidableEq, Repr

/-- Numeric value of a digit run. -/
def digitsToNat : List Char → ℕ
  | [] => 0
  | ds => ds.foldl (fun n c => 10 * n + (c.toNat - '0'.toNat)) 0

/-- Gregorian leap-year test, as used by `datetime`. -/
def isLeap (y : ℕ) : Bool :=
  y % 4 = 0 ∧ (y % 100 ≠ 0 ∨ y % 400 = 0)

/-- Days in a month, as validated by the `datetime` constructor. -/
def daysInMonth (y m : ℕ) : ℕ :=
  if m = 2 then (if isLeap y then 29 else 28)
  else if m = 4 ∨ m = 6 ∨ m = 9 ∨ m = 11 then 30
  else 31

/-- `date.toordinal()`: day number of (y, m, d) with 0001-01-01 as day 1;
only meaningful on dates that pass validation. -/
def toordinal (y m d : ℕ) : ℕ :=
  let py := y - 1
  let daysBefore :=
    (List.range (m - 1)).foldl (fun acc i => acc + daysInMonth y (i + 1)) 0
  365 * py + py / 4 - py / 100 + py / 400 + daysBefore + d

/-- Microseconds represented by a parsed timestamp, on the `toordinal`
day scale; only differences of these values are ever used. -/
def tsMicros (t : ParsedTs) : ℤ :=
  ((toordinal t.year t.month t.day * 86400
      + t.hour * 3600 + t.minute * 60 + t.second : ℕ) : ℤ) * 1000000
    + (t.microsecond : ℤ)

/-- Take a run of decimal digits of length between `lo` and `hi` from the
front; fail otherwise. -/
def takeDigits (lo hi : ℕ) (cs : List Char) : Option (ℕ × List Char) :=
  let run := cs.takeWhile Char.isDigit
  if lo ≤ run.length ∧ run.length ≤ hi then some (digitsToNat run, cs.drop run.length)
  else none

/-- Expect one literal character. -/
def expectChar (c : Char) : List Char → Option (List Char)
  | d :: rest => if d = c then some rest else none
  | [] => none

/-- `datetime.strptime(s, "%Y-%m-%d %H:%M:%S.%f")`, including the range
validation performed by the `datetime` constructor; `none` models the
`ValueError` caught by `calculate_response_time`. -/
def strptime_ymd_hms_f (s : String) : Option ParsedTs := do
  let cs := s.toList
  let (y, cs) ← takeDigits 4 4 cs
  let cs ← expectChar '-' cs
  let (mo, cs) ← takeDigits 1 2 cs
  let cs ← expectChar '-' cs
  let (d, cs) ← takeDigits 1 2 cs
  let sp := cs.takeWhile Char.isWhitespace
  if sp.isEmpty then none else do
  let cs := cs.drop sp.length
  let (h, cs) ← takeDigits 1 2 cs
  let cs ← expectChar ':' cs
  let (mi, cs) ← takeDigits 1 2 cs
  let cs ← expectChar ':' cs
  let (sec, cs) ← takeDigits 1 2 cs
  let cs ← expectChar '.' cs
  let frun := cs.takeWhile Char.isDigit
  if frun.isEmpty ∨ 6 < frun.length ∨ cs.drop frun.length ≠ [] then none
  else
    let f := digitsToNat frun * 10 ^ (6 - frun.length)
    if 1 ≤ y ∧ y ≤ 9999 ∧ 1 ≤ mo ∧ mo ≤ 12 ∧ 1 ≤ d ∧ d ≤ daysInMonth y mo
        ∧ h ≤ 23 ∧ mi ≤ 59 ∧ sec ≤ 59 then
      some ⟨y, mo, d, h, mi, sec, f⟩
    else none

/-- `OpenRouterResponseParser.calculate_response_time`: the signed
difference response − request in fractional seconds, or `None` when
either timestamp fails to parse. -/
def calculate_response_time (request_timestamp response_timestamp : String) : Option ℚ :=
  match strptime_ymd_hms_f request_timestamp, strptime_ymd_hms_f response_timestamp with
  | some req, some resp => some (((tsMicros resp - tsMicros req : ℤ) : ℚ) / 1000000)
  | _, _ => none

/-! ## Strict payload parsing

`parse_json_entry` first cleans the text (a UTF-8 round-trip that is the
identity on the valid Unicode strings modelled here) and calls
`json.loads`.  The parser below models the default `json.loads`:
whitespace is space, tab, newline, carriage return; strings use the
standard escapes and reject raw control characters (strict mode);
`NaN`, `Infinity` and `-Infinity` are accepted as number lexemes;
numbers are kept as lexemes because no value in this development ever
consumes them.  A `\u` escape that is a lone surrogate is accepted by
Python but is not representable as a Lean `Char`; the model rejects it
(no claim exercises this corner).  Duplicate object keys keep all pairs
in order; lookups take the last occurrence, matching dict assignment.
The fuel argument strictly exceeds the number of parser calls possible
on the given input, so it never runs out. -/

inductive Json where
  | null
  | bool (b : Bool)
  | num (lexeme : String)
  | str (s : String)
  | arr (items : List Json)
  | obj (members : List (String × Json))

/-- JSON whitespace skipping (space, tab, newline, carriage return). -/
def skipWs (cs : List Char) : List Char :=
  cs.dropWhile fun c => c = ' ' || c = '\t' || c = '\n' || c = '\r'

/-- Value of one hexadecimal digit. -/
def hexVal (c : Char) : Option ℕ :=
  if '0' ≤ c ∧ c ≤ '9' then some (c.toNat - '0'.toNat)
  else if 'a' ≤ c ∧ c ≤ 'f' then some (c.toNat - 'a'.toNat + 10)
  else if 'A' ≤ c ∧ c ≤ 'F' then some (c.toNat - 'A'.toNat + 10)
  else none

/-- Value of a four-hex-digit escape. -/
def hex4 (a b c d : Char) : Option ℕ := do
  let va ← hexVal a
  let vb ← hexVal b
  let vc ← hexVal c
  let vd ← hexVal d
  pure (((va * 16 + vb) * 16 + vc) * 16 + vd)

/-- Scan a JSON string body (after the opening quote), producing the
decoded string and the remaining input after the closing quote. -/
def parseJStringGo : ℕ → List Char → List Char → Option (String × List Char)
  | 0, _, _ => none
  | _ + 1, _, [] => none
  | fuel + 1, acc, c :: rest =>
    if c = '"' then some (String.mk acc.reverse, rest)
    else if c = '\\' then
      match rest with
      | '"' :: r => parseJStringGo fuel ('"' :: acc) r
      | '\\' :: r => parseJStringGo fuel ('\\' :: acc) r
      | '/' :: r => parseJStringGo fuel ('/' :: acc) r
      | 'b' :: r => parseJStringGo fuel ('\x08' :: acc) r
      | 'f' :: r => parseJStringGo fuel ('\x0c' :: acc) r
      | 'n' :: r => parseJStringGo fuel ('\n' :: acc) r
      | 'r' :: r => parseJStringGo fuel ('\r' :: acc) r
      | 't' :: r => parseJStringGo fuel ('\t' :: acc) r
      | 'u' :: h1 :: h2 :: h3 :: h4c :: r =>
        match hex4 h1 h2 h3 h4c with
        | none => none
        | some n =>
          if 0xD800 ≤ n ∧ n ≤ 0xDBFF then
            match r with
            | '\\' :: 'u' :: g1 :: g2 :: g3 :: g4 :: r2 =>
              match hex4 g1 g2 g3 g4 with
              | some m =>
                if 0xDC00 ≤ m ∧ m ≤ 0xDFFF then
                  let code := 0x10000 + (n - 0xD800) * 0x400 + (m - 0xDC00)
                  if code.isValidChar then
                    parseJStringGo fuel (Char.ofNat code :: acc) r2
                  else none
                else none
              | none => none
            | _ => none
          else if 0xDC00 ≤ n ∧ n ≤ 0xDFFF then none
          else
            if n.isValidChar then parseJStringGo fuel (Char.ofNat n :: acc) r
            else none
      | _ => none
    else if c.toNat < 0x20 then none
    else parseJStringGo fuel (c :: acc) rest

/-- JSON number lexeme: `-?(0|[1-9][0-9]*)(.[0-9]+)?([eE][+-]?[0-9]+)?`. -/
def parseNumberLex (cs : List Char) : Option (String × List Char) :=
  let (sign, cs1) :=
    match cs with
    | '-' :: rest => (['-'], rest)
    | _ => ([], cs)
  match cs1 with
  | '0' :: rest => continueNumber (sign ++ ['0']) rest
  | c :: rest =>
    if c.isDigit then
      let run := rest.takeWhile Char.isDigit
      continueNumber (sign ++ [c] ++ run) (rest.drop run.length)
    else none
  | [] => none
where
  continueNumber (intPart : List Char) (cs : List Char) : Option (String × List Char) :=
    let (fracPart, cs2) :=
      match cs with
      | '.' :: rest =>
        let run := rest.takeWhile Char.isDigit
        if run.isEmpty then ([], cs) else ('.' :: run, rest.drop run.length)
      | _ => ([], cs)
    let (expPart, cs3) :=
      match cs2 with
      | e :: rest =>
        if e = 'e' ∨ e = 'E' then
          let (sgn, rest2) :=
            match rest with
            | s :: r2 => if s = '+' ∨ s = '-' then ([s], r2) else ([], rest)
            | [] => ([], rest)
          let run := rest2.takeWhile Char.isDigit
          if run.isEmpty then ([], cs2) else (e :: (sgn ++ run), rest2.drop run.length)
        else ([], cs2)
      | [] => ([], cs2)
    some (String.mk (intPart ++ fracPart ++ expPart), cs3)

mutual

/-- Parse one JSON value at the head of the input (after skipping
whitespace), returning it with the remaining input. -/
def parseValue : ℕ → List Char → Option (Json × List Char)
  | 0, _ => none
  | fuel + 1, cs =>
    match skipWs cs with
    | '\x7b' :: rest => parseObjBody fuel rest
    | '[' :: rest => parseArrBody fuel rest
    | '"' :: rest => (parseJStringGo (rest.length + 1) [] rest).map fun p => (Json.str p.1, p.2)
    | cs' =>
      if "true".toList.isPrefixOf cs' then some (Json.bool true, cs'.drop 4)
      else if "false".toList.isPrefixOf cs' then some (Json.bool false, cs'.drop 5)
      else if "null".toList.isPrefixOf cs' then some (Json.null, cs'.drop 4)
      else if "NaN".toList.isPrefixOf cs' then some (Json.num "NaN", cs'.drop 3)
      else if "Infinity".toList.isPrefixOf cs' then some (Json.num "Infinity", cs'.drop 8)
      else if "-Infinity".toList.isPrefixOf cs' then some (Json.num "-Infinity", cs'.drop 9)
      else (parseNumberLex cs').map fun p => (Json.num p.1, p.2)

/-- Parse an object body after the opening brace. -/
def parseObjBody : ℕ → List Char → Option (Json × List Char)
  | 0, _ => none
  | fuel + 1, cs =>
    match skipWs cs with
    | '\x7d' :: rest => some (Json.obj [], rest)
    | _ => parseMembers fuel cs []

/-- Parse the members of a nonempty object. -/
def parseMembers : ℕ → List Char → List (String × Json) → Option (Json × List Char)
  | 0, _, _ => none
  | fuel + 1, cs, acc =>
    match skipWs cs with
    | '"' :: rest =>
      match parseJStringGo (rest.length + 1) [] rest with
      | none => none
      | some (key, afterKey) =>
        match skipWs afterKey with
        | ':' :: afterColon =>
          match parseValue fuel afterColon with
          | none => none
          | some (v, afterVal) =>
            match skipWs afterVal with
            | ',' :: afterComma => parseMembers fuel afterComma (acc ++ [(key, v)])
            | '\x7d' :: rest2 => some (Json.obj (acc ++ [(key, v)]), rest2)
            | _ => none
        | _ => none
    | _ => none

/-- Parse an array body after the opening bracket. -/
def parseArrBody : ℕ → List Char → Option (Json × List Char)
  | 0, _ => none
  | fuel + 1, cs =>
    match skipWs cs with
    | ']' :: rest => some (Json.arr [], rest)
    | _ => parseItems fuel cs []

/-- Parse the items of a nonempty array. -/
def parseItems : ℕ → List Char → List Json → Option (Json × List Char)
  | 0, _, _ => none
  | fuel + 1, cs, acc =>
    match parseValue fuel cs with
    | none => none
    | some (v, afterVal) =>
      match skipWs afterVal with
      | ',' :: afterComma => parseItems fuel afterComma (acc ++ [v])
      | ']' :: rest => some (Json.arr (acc ++ [v]), rest)
      | _ => none

end

/-- `json.loads`: one value, surrounded only by whitespace. -/
def json_loads (s : String) : Option Json :=
  let cs := s.toList
  match parseValue (3 * cs.length + 3) cs with
  | some (j, rest) => if skipWs rest = [] then some j else none
  | none => none

/-! ## Recovery parsing

`_manual_json_parse` splits the body on newlines and runs a line scan
with flags `in_messages` / `in_content`, a current-message accumulator
(a dict gaining `role` / `content` keys), a buffer of content lines and
a write-only `brace_count`; a line consisting of a closing bracket ends
the scan.  Branches are modelled in source order, including the
unconditional first branch that skips any line containing the messages
key. -/

structure ManualMsg where
  role : Option String := none
  content : Option String := none
deriving DecidableEq, Repr

/-- Python truthiness of the `current_message` dict: it has gained at
least one key. -/
def msgNonempty (m : ManualMsg) : Bool :=
  m.role.isSome || m.content.isSome

structure MState where
  msgs : List ManualMsg := []
  current : ManualMsg := {}
  inMessages : Bool := false
  inContent : Bool := false
  contentLines : List String := []
  braceCount : ℕ := 0
  stopped : Bool := false
deriving DecidableEq, Repr

/-- One iteration of the `_manual_json_parse` line loop. -/
def manualStep (st : MState) (line : String) : MState :=
  if st.stopped then st
  else
    let stripped := pyTrim line
    if strContains stripped "\"messages\"" then { st with inMessages := true }
    else if st.inMessages then
      if pyStartsWith stripped "\x7b" ∧ ¬ st.inContent then
        { st with current := {}, braceCount := 1 }
      else if strContains stripped "\"content\":" then
        let contentStart := pyTrim ((splitOnce stripped "\"content\":").getD ("", "")).2
        if pyStartsWith contentStart "\"" then
          { st with inContent := true, contentLines := [pyDrop contentStart 1] }
        else
          { st with inContent := true }
      else if st.inContent then
        if pyEndsWith stripped "\"," then
          let allLines := st.contentLines ++ [pyDropRight stripped 2]
          { st with
              current := { st.current with content := some (pyIntercalate "\n" allLines) },
              contentLines := [], inContent := false }
        else if pyEndsWith stripped "\"" then
          let allLines := st.contentLines ++ [pyDropRight stripped 1]
          { st with
              current := { st.current with content := some (pyIntercalate "\n" allLines) },
              contentLines := [], inContent := false }
        else
          { st with contentLines := st.contentLines ++ [stripped] }
      else if strContains stripped "\"role\":" then
        let roleValue := pyTrim ((splitOnce stripped "\"role\":").getD ("", "")).2
        if pyStartsWith roleValue "\"" ∧ pyEndsWith roleValue "\"" then
          { st with current := { st.current with role := some (pyDropRight (pyDrop roleValue 1) 1) } }
        else if pyStartsWith roleValue "\"" ∧ pyEndsWith roleValue "\"," then
          { st with current := { st.current with role := some (pyDropRight (pyDrop roleValue 1) 2) } }
        else st
      else if stripped = "\x7d" ∨ stripped = "\x7d," then
        if msgNonempty st.current then
          { st with msgs := st.msgs ++ [st.current], current := {} }
        else st
      else if stripped = "]" then
        { st with inMessages := false, stopped := true }
      else st
    else st

/-- The messages finalized by the recovery line scan. -/
def manualMessages (t : String) : List ManualMsg :=
  ((pySplitLines t).foldl manualStep {}).msgs

/-- `_manual_json_parse`: the scan result when at least one message was
finalized, `None` otherwise. -/
def manual_json_parse (t : String) : Option (List ManualMsg) :=
  let msgs := manualMessages t
  if msgs ≠ [] then some msgs else none

/-- `parse_json_entry`: strict parsing first; on failure, the recovery
scan is attempted only when the literal messages key occurs in the text.
The left summand is a strict (`json.loads`) result, the right one a
recovered message list. -/
def parse_json_entry (t : String) : Option (Json ⊕ List ManualMsg) :=
  match json_loads t with
  | some j => some (Sum.inl j)
  | none =>
    if strContains t "\"messages\"" then
      match manual_json_parse t with
      | some ms => some (Sum.inr ms)
      | none => none
    else none

/-! ## Content extraction -/

/-- Dict-style last-occurrence lookup in a parsed JSON object. -/
def jsonObjGet (kvs : List (String × Json)) (k : String) : Option Json :=
  kvs.reverse.lookup k

/-- The `content` values present in a strict messages array, in order.
Messages without a `content` key are skipped (as in
`extract_messages_content`); a non-object message or a non-string
content value makes the Python pipeline crash and is modelled as
failure. -/
def contentsOfMessages : List Json → Option (List String)
  | [] => some []
  | Json.obj mkvs :: rest =>
    match contentsOfMessages rest with
    | none => none
    | some tail =>
      match jsonObjGet mkvs "content" with
      | some (Json.str s) => some (s :: tail)
      | some _ => none
      | none => some tail
  | _ :: _ => none

/-- The `content` values of a strictly parsed payload: the value under
the messages key must be an array (`request_data.get("messages", [])`
followed by the message loop). -/
def strictMessagesContents (j : Json) : Option (List String) :=
  match j with
  | Json.obj kvs =>
    match jsonObjGet kvs "messages" with
    | some (Json.arr xs) => contentsOfMessages xs
    | _ => none
  | _ => none

/-- The blank-line join of `extract_messages_content`. -/
def normalizedContent (contents : List String) : String :=
  pyIntercalate "\n\n" contents

/-- `extract_messages_content` applied to recovered messages: keep the
`content` value of every message that has one and join with blank
lines. -/
def extract_messages_content (msgs : List ManualMsg) : String :=
  normalizedContent (msgs.filterMap (·.content))

/-- NormalizedContent along the strict path. -/
def strictNormalized (t : String) : Option String :=
  match json_loads t with
  | some j => (strictMessagesContents j).map normalizedContent
  | none => none

/-- NormalizedContent along the recovery path. -/
def manualNormalized (t : String) : Option String :=
  (manual_json_parse t).map extract_messages_content

/-! ## Response-side processing (Correlator)

`OpenRouterResponseParser.process_log_file` scans the output log lines:
a line whose stripped form matches `response_pattern` is looked up in
the identifier mapping built from `unique_identifiers.json`; an absent
identifier only increments the unmatched counter and scanning resumes
at the very next line, while a present one consumes the following
non-header lines as content and appends one record to both
`processed_responses` and `timing_data`.  `respCore` mirrors `segCore`:
it returns (pending non-header lines up to the next header, state from
this position on). -/

structure ReqInfo where
  timestamp : String
  prompt_type : String
deriving DecidableEq, Repr

structure TimingRecord where
  id : String
  prompt_type : String
  request_timestamp : String
  response_timestamp : String
  response_time : Option ℚ
deriving DecidableEq, Repr

structure ProcessedRecord where
  id : String
  prompt_type : String
  request_timestamp : String
  response_timestamp : String
  response_time : Option ℚ
  content_length : ℕ
deriving DecidableEq, Repr

structure RState where
  timing_data : List TimingRecord := []
  processed_responses : List ProcessedRecord := []
  matched : ℕ := 0
  unmatched : ℕ := 0
deriving DecidableEq, Repr

/-- Right-to-left accumulation for the response loop. -/
def respCore (lookup : List (String × ReqInfo)) : List String → (List String × RState)
  | [] => ([], {})
  | l :: ls =>
    match response_pattern (pyTrim l) with
    | some (response_timestamp, unique_id) =>
      ([],
        let st := (respCore lookup ls).2
        match lookup.lookup unique_id with
        | none => { st with unmatched := st.unmatched + 1 }
        | some info =>
          let content := pyTrim (pyJoin (respCore lookup ls).1)
          let rt := calculate_response_time info.timestamp response_timestamp
          { st with
              timing_data :=
                ⟨unique_id, info.prompt_type, info.timestamp, response_timestamp, rt⟩
                  :: st.timing_data,
              processed_responses :=
                ⟨unique_id, info.prompt_type, info.timestamp, response_timestamp, rt,
                  pyLength content⟩ :: st.processed_responses,
              matched := st.matched + 1 })
    | none => (l :: (respCore lookup ls).1, (respCore lookup ls).2)

/-- `OpenRouterResponseParser.process_log_file` on an in-memory line
list (lines keep their trailing newline, as with `readlines`). -/
def response_process_log_file (lookup : List (String × ReqInfo)) (lines : List String) : RState :=
  (respCore lookup lines).2

/-! ## Helper lemmas -/

/-- A `findSome?` whose scanned function can only ever produce `some b`
returns `some b` as soon as it produces anything. -/
theorem findSome?_const {α β : Type} (l : List α) (f : α → Option β) (b : β)
    (hex : ∃ x ∈ l, (f x).isSome) (hall : ∀ x ∈ l, ∀ c, f x = some c → c = b) :
    l.findSome? f = some b := by
  induction l with
  | nil => simp at hex
  | cons a as ih =>
    rw [List.findSome?_cons]
    cases hfa : f a with
    | some c =>
      have : c = b := hall a (by simp) c hfa
      simp [this]
    | none =>
      apply ih
      · obtain ⟨x, hx, hs⟩ := hex
        rcases List.mem_cons.mp hx with hx | hx
        · subst hx; rw [hfa] at hs; simp at hs
        · exact ⟨x, hx, hs⟩
      · intro x hx c hc
        exact hall x (by simp [hx]) c hc

/-- The pending component of `segCore` is the run of non-header lines at
the front. -/
theorem segCore_fst (hdr : String → Bool) (lines : List String) :
    (segCore hdr lines).1 = lines.takeWhile (fun l => !hdr l) := by
  induction lines with
  | nil => rfl
  | cons l ls ih =>
    by_cases h : hdr l = true
    · simp [segCore, h, List.takeWhile_cons]
    · simp at h
      simp [segCore, h, List.takeWhile_cons, ih]

/-- Leading non-header lines do not change the record component. -/
theorem segCore_snd_dropWhile (hdr : String → Bool) (lines : List String) :
    (segCore hdr (lines.dropWhile (fun l => !hdr l))).2 = (segCore hdr lines).2 := by
  induction lines with
  | nil => rfl
  | cons l ls ih =>
    by_cases h : hdr l = true
    · simp [List.dropWhile_cons, h]
    · simp at h
      simp [List.dropWhile_cons, h, segCore, ih]

/-- Reconstruction: the input lines are the pending preamble followed by
the header line and body of each record. -/
theorem segCore_reconstruct (hdr : String → Bool) (lines : List String) :
    lines = (segCore hdr lines).1
        ++ (segCore hdr lines).2.foldr (fun r acc => r.1 :: (r.2 ++ acc)) [] := by
  induction lines with
  | nil => rfl
  | cons l ls ih =>
    by_cases h : hdr l = true
    · simp only [segCore, h, if_true, List.foldr_cons, List.nil_append]
      exact congrArg (l :: ·) ih
    · simp only [segCore, h, if_false, List.cons_append, Bool.false_eq_true]
      exact congrArg (l :: ·) ih

/-- One record is produced per header line. -/
theorem segCore_length (hdr : String → Bool) (lines : List String) :
    (segCore hdr lines).2.length = lines.countP hdr := by
  induction lines with
  | nil => rfl
  | cons l ls ih =>
    by_cases h : hdr l = true
    · simp [segCore, h, List.countP_cons, ih]
    · simp at h
      simp [segCore, h, List.countP_cons, ih]

/-- Each record consists of a header line and non-header body lines. -/
theorem segCore_wf (hdr : String → Bool) (lines : List String) :
    ∀ r ∈ (segCore hdr lines).2, hdr r.1 = true ∧ ∀ l ∈ r.2, hdr l = false := by
  induction lines with
  | nil => simp [segCore]
  | cons l ls ih =>
    by_cases h : hdr l = true
    · simp only [segCore, h, if_true]
      intro r hr
      rcases List.mem_cons.mp hr with hr | hr
      · subst hr
        refine ⟨h, ?_⟩
        intro x hx
        rw [segCore_fst] at hx
        simpa using List.mem_takeWhile_imp hx
      · exact ih r hr
    · simp only [segCore, h]
      simpa using ih

/-! ## Claims -/

/-- C1: the classifier consults the tiers in the order variant matching,
fixed-pattern matching, fuzzy matching, signature-prefix fallback, and
the first tier that matches wins.  For every content string and every
signature store, if the content window (first 800 characters,
case-insensitively) contains a variant substring of type `A` — and of no
other type, so that `A` is the tier-1 match — while a tier-2
fixed-pattern substring of a different type `B` also occurs, the result
is `A`: the fixed-pattern tier is never consulted. -/
theorem c1_variant_tier_wins (sim : String → String → ℚ) (variants : Variants)
    (prompt_types : PromptTypes) (content A B : String)
    (hA : ∃ pr ∈ variants, pr.1 = A ∧
      ∃ p ∈ pr.2.patterns, strContains (pyTake (pyLower content) 800) (pyLower p) = true)
    (honly : ∀ pr ∈ variants,
      (∃ p ∈ pr.2.patterns, strContains (pyTake (pyLower content) 800) (pyLower p) = true) →
        pr.1 = A)
    (_hB : ∃ pr ∈ pattern_matches, pr.1 = B ∧
      ∃ p ∈ pr.2, strContains (pyTake (pyLower content) 800) p = true)
    (_hAB : B ≠ A) :
    find_matching_prompt_type sim variants prompt_types content = some A := by
  have hvm : variant_match variants (pyTake (pyLower content) 800) = some A := by
    apply findSome?_const
    · obtain ⟨pr, hmem, hname, p, hp, hc⟩ := hA
      refine ⟨pr, hmem, ?_⟩
      have hany : pr.2.patterns.any
          (fun p => strContains (pyTake (pyLower content) 800) (pyLower p)) = true :=
        List.any_eq_true.mpr ⟨p, hp, hc⟩
      simp [hany, hname]
    · intro pr hmem c hc
      by_cases hany : pr.2.patterns.any
          (fun p => strContains (pyTake (pyLower content) 800) (pyLower p)) = true
      · have hname := honly pr hmem (by simpa using List.any_eq_true.mp hany)
        rw [if_pos hany] at hc
        cases hc
        exact hname
      · rw [if_neg hany] at hc
        cases hc
  simp only [find_matching_prompt_type]
  rw [hvm]

set_option maxRecDepth 4000 in
/-- Witness for C1: a store whose only variant type is `tA`, and content
containing both its variant substring and the first fixed pattern of
`gamemaster_action_selector`. -/
theorem c1_witness :
    find_matching_prompt_type eq_ratio [("tA", { patterns := ["hello"] })] []
      "hello you are the gamemaster ai for skyrim" = some "tA" :=
  c1_variant_tier_wins eq_ratio [("tA", { patterns := ["hello"] })] []
    "hello you are the gamemaster ai for skyrim" "tA" "gamemaster_action_selector"
    (by decide) (by decide) (by decide) (by decide)

/-- C2: the segmentation loop produces exactly one record per
header-matching line; pre-first-header lines are discarded without
error; each record is a header line plus the non-header lines up to the
next header (so consecutive headers, or a final header, give an empty
body); and preamble plus the concatenated records reconstruct the input
line sequence. -/
theorem c2_segmenter_partition (hdr : String → Bool) (lines : List String) :
    (lines = lines.takeWhile (fun l => !hdr l)
        ++ (segmentRecords hdr lines).foldr (fun r acc => r.1 :: (r.2 ++ acc)) [])
    ∧ (segmentRecords hdr lines).length = lines.countP hdr
    ∧ (∀ r ∈ segmentRecords hdr lines, hdr r.1 = true ∧ ∀ l ∈ r.2, hdr l = false)
    ∧ (∀ l ls, hdr l = true →
        segmentRecords hdr (l :: ls)
          = (l, ls.takeWhile (fun x => !hdr x))
              :: segmentRecords hdr (ls.dropWhile (fun x => !hdr x)))
    ∧ (∀ l₁ l₂ ls, hdr l₁ = true → hdr l₂ = true →
        segmentRecords hdr (l₁ :: l₂ :: ls) = (l₁, []) :: segmentRecords hdr (l₂ :: ls))
    ∧ (∀ l, hdr l = true → segmentRecords hdr [l] = [(l, [])]) := by
  refine ⟨?_, ?_, ?_, ?_, ?_, ?_⟩
  · have h := segCore_reconstruct hdr lines
    rw [segCore_fst] at h
    exact h
  · exact segCore_length hdr lines
  · exact segCore_wf hdr lines
  · intro l ls h
    simp only [segmentRecords, segCore, h, if_true]
    rw [segCore_fst, segCore_snd_dropWhile]
  · intro l₁ l₂ ls h₁ h₂
    simp [segmentRecords, segCore, h₁, h₂, segCore_fst, List.takeWhile_cons]
  · intro l h
    simp [segmentRecords, segCore, h]

/-- Witness for C2: two consecutive header lines produce an empty-body
record for the first. -/
theorem c2_witness :
    segmentRecords (fun l => l == "H") ["H", "H", "x"]
      = ("H", []) :: segmentRecords (fun l => l == "H") ["H", "x"] :=
  (c2_segmenter_partition (fun l => l == "H") []).2.2.2.2.1 "H" "H" ["x"]
    (by decide) (by decide)

/-- C6: when no variant pattern, no fixed pattern and no signature
prefix occurs in the content window and fuzzy matching is disabled, the
classifier returns the unknown result (`none`, routed to the
`"unknown"` bucket by the processing loop).  The classifier is a total
function, so no exception is possible on unmatched input. -/
theorem c6_unknown_result (sim : String → String → ℚ) (variants : Variants)
    (prompt_types : PromptTypes) (content : String)
    (h1 : ∀ pr ∈ variants, ∀ p ∈ pr.2.patterns,
      strContains (pyTake (pyLower content) 800) (pyLower p) = false)
    (h2 : ∀ pr ∈ pattern_matches, ∀ p ∈ pr.2,
      strContains (pyTake (pyLower content) 800) p = false)
    (h3 : fuzzy_enabled variants = false)
    (h4 : ∀ pr ∈ prompt_types,
      (30 < pyLength (pyLower pr.2.original_signature) →
        strContains (pyTake (pyLower content) 800)
          (pyTake (pyLower pr.2.original_signature)
            (min 100 (pyLength (pyLower pr.2.original_signature)))) = false)
      ∧ (30 < pyLength (pyLower pr.2.simplified_signature) →
        strContains (pyTake (pyLower content) 800)
          (pyTake (pyLower pr.2.simplified_signature)
            (min 100 (pyLength (pyLower pr.2.simplified_signature)))) = false)) :
    find_matching_prompt_type sim variants prompt_types content = none
    ∧ classify_or_unknown sim variants prompt_types content = "unknown" := by
  have hv : variant_match variants (pyTake (pyLower content) 800) = none := by
    apply List.findSome?_eq_none_iff.mpr
    intro pr hpr
    have hany : (pr.2.patterns.any
        fun p => strContains (pyTake (pyLower content) 800) (pyLower p)) = false := by
      apply List.any_eq_false.mpr
      intro p hp
      simp [h1 pr hpr p hp]
    simp [hany]
  have hf : fixed_pattern_match (pyTake (pyLower content) 800) = none := by
    apply List.findSome?_eq_none_iff.mpr
    intro pr hpr
    have hcnt : pr.2.countP (fun p => strContains (pyTake (pyLower content) 800) p) = 0 := by
      apply List.countP_eq_zero.mpr
      intro p hp
      simp [h2 pr hpr p hp]
    simp [hcnt]
  have hs : signature_match prompt_types (pyTake (pyLower content) 800) = none := by
    apply List.findSome?_eq_none_iff.mpr
    intro pr hpr
    have h4pr := h4 pr hpr
    simp only [signature_match]
    split_ifs with hc1 hc2
    · rw [h4pr.1 hc1.1] at hc1
      exact absurd hc1.2 (by simp)
    · rw [h4pr.2 hc2.1] at hc2
      exact absurd hc2.2 (by simp)
    · rfl
  have hres : find_matching_prompt_type sim variants prompt_types content = none := by
    simp only [find_matching_prompt_type]
    rw [hv, hf, h3, hs]
    simp
  exact ⟨hres, by simp [classify_or_unknown, hres, Option.getD]⟩

set_option maxRecDepth 4000 in
/-- Witness for C6: the content `"zzz"` with an empty store matches no
built-in fixed pattern either, and classifies as unknown. -/
theorem c6_witness :
    find_matching_prompt_type eq_ratio [] [] "zzz" = none
    ∧ classify_or_unknown eq_ratio [] [] "zzz" = "unknown" :=
  c6_unknown_result eq_ratio [] [] "zzz" (by decide) (by decide) (by decide) (by decide)

/-- C7: a response record whose identifier is absent from the
identifier-to-request mapping is not added to the timing output or the
processed responses, only increments the unmatched counter, and leaves
the processing of all remaining lines unchanged; globally, every record
in the timing or processed output has an identifier present in the
mapping.  The loop is a total function, so no exception is raised. -/
theorem c7_unmatched_response (lookup : List (String × ReqInfo)) (l : String)
    (ls lines : List String) (ts uid : String)
    (hhdr : response_pattern (pyTrim l) = some (ts, uid))
    (habs : lookup.lookup uid = none) :
    response_process_log_file lookup (l :: ls)
      = { response_process_log_file lookup ls with
            unmatched := (response_process_log_file lookup ls).unmatched + 1 }
    ∧ (∀ r ∈ (response_process_log_file lookup lines).timing_data,
        (lookup.lookup r.id).isSome = true)
    ∧ (∀ r ∈ (response_process_log_file lookup lines).processed_responses,
        (lookup.lookup r.id).isSome = true) := by
  refine ⟨?_, ?_, ?_⟩
  · simp only [response_process_log_file, respCore, hhdr, habs]
  · induction lines with
    | nil => simp [response_process_log_file, respCore]
    | cons x xs ih =>
      simp only [response_process_log_file] at ih ⊢
      cases hx : response_pattern (pyTrim x) with
      | none => simpa [respCore, hx] using ih
      | some pr =>
        obtain ⟨rts, rid⟩ := pr
        cases hlk : lookup.lookup rid with
        | none => simpa [respCore, hx, hlk] using ih
        | some info =>
          simp only [respCore, hx, hlk]
          intro r hr
          rcases List.mem_cons.mp hr with hr | hr
          · subst hr
            simp [hlk]
          · exact ih r hr
  · induction lines with
    | nil => simp [response_process_log_file, respCore]
    | cons x xs ih =>
      simp only [response_process_log_file] at ih ⊢
      cases hx : response_pattern (pyTrim x) with
      | none => simpa [respCore, hx] using ih
      | some pr =>
        obtain ⟨rts, rid⟩ := pr
        cases hlk : lookup.lookup rid with
        | none => simpa [respCore, hx, hlk] using ih
        | some info =>
          simp only [respCore, hx, hlk]
          intro r hr
          rcases List.mem_cons.mp hr with hr | hr
          · subst hr
            simp [hlk]
          · exact ih r hr

/-- Witness for C7: one response line with an identifier absent from an
empty mapping is counted as unmatched and produces no records. -/
theorem c7_witness :
    response_process_log_file [] ["[2024-01-01 10:00:03.000000] Generated response [zzz]:\n"]
      = { timing_data := [], processed_responses := [], matched := 0, unmatched := 1 } := by
  have h := (c7_unmatched_response [] "[2024-01-01 10:00:03.000000] Generated response [zzz]:\n"
    [] [] "2024-01-01 10:00:03.000000" "zzz" (by decide) (by decide)).1
  rw [h]
  rfl

/-- C8: for a matched pair whose two timestamps both parse in the fixed
format, the elapsed time is the signed difference response − request in
fractional seconds; when either timestamp fails to parse the elapsed
time is `none`; and the processing loop still appends the timing record
with exactly that (possibly absent) elapsed value, so a parse failure
never aborts the run. -/
theorem c8_elapsed_seconds :
    (∀ req resp a b, strptime_ymd_hms_f req = some a → strptime_ymd_hms_f resp = some b →
      calculate_response_time req resp
        = some (((tsMicros b - tsMicros a : ℤ) : ℚ) / 1000000))
    ∧ (∀ req resp, strptime_ymd_hms_f req = none ∨ strptime_ymd_hms_f resp = none →
      calculate_response_time req resp = none)
    ∧ (∀ (lookup : List (String × ReqInfo)) l ls ts uid info,
        response_pattern (pyTrim l) = some (ts, uid) → lookup.lookup uid = some info →
        (response_process_log_file lookup (l :: ls)).timing_data
          = ⟨uid, info.prompt_type, info.timestamp, ts,
              calculate_response_time info.timestamp ts⟩
            :: (response_process_log_file lookup ls).timing_data) := by
  refine ⟨?_, ?_, ?_⟩
  · intro req resp a b ha hb
    simp [calculate_response_time, ha, hb]
  · intro req resp h
    rcases h with h | h <;> simp [calculate_response_time, h]
  · intro lookup l ls ts uid info hhdr hlk
    simp only [response_process_log_file, respCore, hhdr, hlk]

/-- Witness for C8: a request at 10:00:00 and response at 10:00:02.5
give elapsed 2.5 seconds; an unparsable request timestamp still yields
a retained timing record with elapsed time absent. -/
theorem c8_witness :
    calculate_response_time "2024-01-01 10:00:00.000000" "2024-01-01 10:00:02.500000"
      = some (5/2)
    ∧ calculate_response_time "bad-timestamp" "2024-01-01 10:00:02.500000" = none
    ∧ (response_process_log_file [("abc", ⟨"bad-timestamp", "dialogue_response"⟩)]
        ["[2024-01-01 10:00:02.500000] Generated response [abc]:\n"]).timing_data
      = [⟨"abc", "dialogue_response", "bad-timestamp", "2024-01-01 10:00:02.500000", none⟩] := by
  refine ⟨?_, ?_, ?_⟩
  · have h := c8_elapsed_seconds.1 "2024-01-01 10:00:00.000000" "2024-01-01 10:00:02.500000"
      ⟨2024, 1, 1, 10, 0, 0, 0⟩ ⟨2024, 1, 1, 10, 0, 2, 500000⟩ (by decide) (by decide)
    rw [h]
    norm_num [tsMicros, toordinal, daysInMonth, isLeap]
  · exact c8_elapsed_seconds.2.1 "bad-timestamp" "2024-01-01 10:00:02.500000"
      (Or.inl (by decide))
  · have h := c8_elapsed_seconds.2.2 [("abc", ⟨"bad-timestamp", "dialogue_response"⟩)]
      "[2024-01-01 10:00:02.500000] Generated response [abc]:\n" []
      "2024-01-01 10:00:02.500000" "abc" ⟨"bad-timestamp", "dialogue_response"⟩
      (by decide) (by decide)
    rw [h]
    rfl

/-- C10: `calculate_response_time` performs no ordering validation — for
a matched pair where both timestamps parse and the response predates the
request, the elapsed value is produced as a negative signed difference
rather than being absent or an error. -/
theorem c10_negative_elapsed (req resp : String) (a b : ParsedTs)
    (ha : strptime_ymd_hms_f req = some a)
    (hb : strptime_ymd_hms_f resp = some b)
    (hlt : tsMicros b < tsMicros a) :
    ∃ q : ℚ, calculate_response_time req resp = some q ∧ q < 0 := by
  refine ⟨((tsMicros b - tsMicros a : ℤ) : ℚ) / 1000000, ?_, ?_⟩
  · simp [calculate_response_time, ha, hb]
  · apply div_neg_of_neg_of_pos
    · exact_mod_cast sub_neg.mpr (by exact_mod_cast hlt)
    · norm_num

/-- Witness for C10: a response 2.5 seconds before its request yields a
negative elapsed value. -/
theorem c10_witness :
    ∃ q : ℚ, calculate_response_time "2024-01-01 10:00:02.500000" "2024-01-01 10:00:00.000000"
      = some q ∧ q < 0 :=
  c10_negative_elapsed "2024-01-01 10:00:02.500000" "2024-01-01 10:00:00.000000"
    ⟨2024, 1, 1, 10, 0, 2, 500000⟩ ⟨2024, 1, 1, 10, 0, 0, 0⟩
    (by decide) (by decide) (by decide)

set_option maxRecDepth 8000 in
/-- Counterexample to C3: a strictly valid single-line payload.  Strict
extraction yields the content `"hi"`, but the recovery line scan —
which only recognizes content values that open on one line and close on
a later one — finalizes no message at all, so the two paths do not
yield identical NormalizedContent. -/
theorem c3_counterexample :
    strictNormalized "\x7b\"messages\": [\x7b\"role\": \"system\", \"content\": \"hi\"\x7d]\x7d"
      = some "hi"
    ∧ manualNormalized "\x7b\"messages\": [\x7b\"role\": \"system\", \"content\": \"hi\"\x7d]\x7d"
      = none := by
  exact ⟨by rfl, by rfl⟩

/-- C3, amended: recovery is only a fallback, not a parallel semantics:
whenever strict parsing succeeds, `parse_json_entry` returns the strict
result and the recovery scan is never consulted, so the extracted
NormalizedContent is the strict one; run on the same body, the recovery
scan may fail or produce different content. -/
theorem c3_strict_result_wins (t : String) (j : Json)
    (h : json_loads t = some j) :
    parse_json_entry t = some (Sum.inl j)
    ∧ strictNormalized t = (strictMessagesContents j).map normalizedContent := by
  constructor
  · simp [parse_json_entry, h]
  · simp [strictNormalized, h]

/-- Witness for C3 (amended): the strictly parseable text `"null"`. -/
theorem c3_witness :
    parse_json_entry "null" = some (Sum.inl Json.null)
    ∧ strictNormalized "null" = (strictMessagesContents Json.null).map normalizedContent :=
  c3_strict_result_wins "null" Json.null (by rfl)

set_option maxRecDepth 8000 in
/-- Counterexample to C4: a truncated payload whose only message has a
role line and an unterminated content string.  Strict parsing fails,
and the recovery scan never leaves content capture, so the in-flight
message is never finalized: zero messages are recovered and the record
is dropped (`parse_json_entry` returns `none`), not extracted. -/
theorem c4_counterexample :
    json_loads "\x7b\n\"messages\": [\n\x7b\n\"role\": \"system\",\n\"content\": \"hello\nworld"
      = none
    ∧ manualMessages "\x7b\n\"messages\": [\n\x7b\n\"role\": \"system\",\n\"content\": \"hello\nworld"
      = []
    ∧ parse_json_entry "\x7b\n\"messages\": [\n\x7b\n\"role\": \"system\",\n\"content\": \"hello\nworld"
      = none := by
  exact ⟨by rfl, by rfl, by rfl⟩

/-- C4, amended: the recovery scan finalizes the in-flight message only
when a later line ends its content capture with a closing quote and a
closing-brace line follows; a message whose content capture never ends
is discarded, so a truncated sole message yields zero recovered
messages.  In general the extraction contract holds: if the scan
finalizes at least one message, `_manual_json_parse` returns exactly
those messages (and `parse_json_entry` extracts them when strict
parsing failed and the messages key is present); if it finalizes zero
messages, both fail. -/
theorem c4_recovery_contract (t : String) :
    (manualMessages t = [] →
      manual_json_parse t = none ∧ (json_loads t = none → parse_json_entry t = none))
    ∧ (manualMessages t ≠ [] →
      manual_json_parse t = some (manualMessages t)
      ∧ (json_loads t = none → strContains t "\"messages\"" = true →
          parse_json_entry t = some (Sum.inr (manualMessages t)))) := by
  constructor
  · intro h
    have hm : manual_json_parse t = none := by
      simp [manual_json_parse, h]
    refine ⟨hm, ?_⟩
    intro hj
    simp only [parse_json_entry, hj, hm]
    split <;> rfl
  · intro h
    have hm : manual_json_parse t = some (manualMessages t) := by
      simp [manual_json_parse, h]
    refine ⟨hm, ?_⟩
    intro hj hc
    simp [parse_json_entry, hj, hm, hc]

set_option maxRecDepth 8000 in
/-- Witness for C4 (amended): a payload with a multi-line content value
recovers one finalized message with its role and content. -/
theorem c4_witness :
    manual_json_parse "\"messages\": [\n\x7b\n\"role\": \"user\",\n\"content\": \"line1\nline2\",\n\x7d\n]"
      = some [{ role := some "user", content := some "line1\nline2" }] := by
  have h := ((c4_recovery_contract
    "\"messages\": [\n\x7b\n\"role\": \"user\",\n\"content\": \"line1\nline2\",\n\x7d\n]").2
    (by decide)).1
  rw [h]
  rfl

set_option maxRecDepth 8000 in
/-- Counterexample to C5: recovered content preserves braces and quote
characters that sit inside the message text, so NormalizedContent can
contain the structural punctuation of the payload format. -/
theorem c5_counterexample :
    manualNormalized "\"messages\": [\n\x7b\n\"role\": \"u\",\n\"content\": \"a\n\x7b x \" y\nb\",\n\x7d\n]"
      = some "a\n\x7b x \" y\nb"
    ∧ strContains "a\n\x7b x \" y\nb" "\x7b" = true
    ∧ strContains "a\n\x7b x \" y\nb" "\"" = true := by
  exact ⟨by rfl, by rfl, by rfl⟩

/-- Characters of an `interChars` image: anything outside the separator
comes from one of the joined pieces. -/
theorem mem_interChars {c : Char} (sep : List Char) (hsep : c ∉ sep)
    (ll : List (List Char)) :
    c ∈ interChars sep ll ↔ ∃ l ∈ ll, c ∈ l := by
  induction ll with
  | nil => simp [interChars]
  | cons x xs ih =>
    cases xs with
    | nil => simp [interChars]
    | cons y ys =>
      simp only [interChars, List.mem_append]
      rw [ih]
      constructor
      · rintro ((h | h) | h)
        · exact ⟨x, by simp, h⟩
        · exact absurd h hsep
        · obtain ⟨l, hl, hcl⟩ := h
          exact ⟨l, List.mem_cons_of_mem _ hl, hcl⟩
      · rintro ⟨l, hl, hcl⟩
        rcases List.mem_cons.mp hl with h | h
        · subst h
          exact Or.inl (Or.inl hcl)
        · exact Or.inr ⟨l, h, hcl⟩

/-- C5, amended: the extraction step itself introduces no structural
punctuation — a character other than the blank-line separator occurs in
`extract_messages_content` exactly when it occurs in some message
content value; the stripped field delimiters never reappear, but braces
or quotes inside content values are preserved verbatim. -/
theorem c5_no_extraction_artifacts (msgs : List ManualMsg) (c : Char) (hc : c ≠ '\n') :
    c ∈ (extract_messages_content msgs).data
      ↔ ∃ m ∈ msgs, ∃ s, m.content = some s ∧ c ∈ s.data := by
  have hsep : c ∉ ("\n\n" : String).data := by
    have h2 : ("\n\n" : String).data = ['\n', '\n'] := rfl
    rw [h2]
    simp [hc]
  have hdata : (extract_messages_content msgs).data
      = interChars ("\n\n" : String).data ((msgs.filterMap (·.content)).map String.data) := rfl
  rw [hdata, mem_interChars _ hsep]
  constructor
  · rintro ⟨l, hl, hcl⟩
    obtain ⟨s, hs, rfl⟩ := List.mem_map.mp hl
    obtain ⟨m, hm, hms⟩ := List.mem_filterMap.mp hs
    exact ⟨m, hm, s, hms, hcl⟩
  · rintro ⟨m, hm, s, hms, hcs⟩
    exact ⟨s.data, List.mem_map.mpr ⟨s, List.mem_filterMap.mpr ⟨m, hm, hms⟩, rfl⟩, hcs⟩

/-- Witness for C5 (amended): a content value containing a brace puts
that brace into the extracted NormalizedContent. -/
theorem c5_witness :
    '\x7b' ∈ (extract_messages_content [{ role := some "u", content := some "a\x7b" }]).data :=
  (c5_no_extraction_artifacts [{ role := some "u", content := some "a\x7b" }] '\x7b'
      (by decide)).mpr
    ⟨{ role := some "u", content := some "a\x7b" }, by simp, "a\x7b", rfl, by decide⟩

/-- One threshold-gated comparison of the fuzzy fold:
`score > best_score and score >= min_threshold` updates the best pair. -/
def candStep (θ : ℚ) (acc : Option String × ℚ) (p : String × ℚ) : Option String × ℚ :=
  if acc.2 < p.2 ∧ θ ≤ p.2 then (some p.1, p.2) else acc

/-- The (type, score) comparisons performed by the fuzzy tier, in
iteration order: for each prompt type, its nonempty signatures in the
order original, simplified, scored on the first 200 characters of the
window against the first 200 characters of the signature. -/
def fuzzyCandidates (sim : String → String → ℚ) (window : String)
    (prompt_types : PromptTypes) : List (String × ℚ) :=
  prompt_types.flatMap fun pr =>
    ([pr.2.original_signature, pr.2.simplified_signature].filter (fun s => s ≠ "")).map
      fun sig => (pr.1, similarity_score sim (pyTake window 200) (pyTake sig 200))

/-- The fuzzy fold step of one prompt type equals the candidate fold over its
nonempty signatures. -/
theorem fuzzy_step_eq_candFold (sim : String → String → ℚ) (θ : ℚ) (window : String)
    (acc : Option String × ℚ) (pr : String × PromptTypeData) :
    fuzzy_step sim θ window acc pr
      = (([pr.2.original_signature, pr.2.simplified_signature].filter (fun s => s ≠ "")).map
          (fun sig => (pr.1, similarity_score sim (pyTake window 200) (pyTake sig 200)))).foldl
          (candStep θ) acc := by
  by_cases ho : pr.2.original_signature = "" <;>
    by_cases hs : pr.2.simplified_signature = "" <;>
      simp [fuzzy_step, candStep, ho, hs]

/-- The whole fuzzy tier is the candidate fold. -/
theorem fuzzy_match_eq_candFold (sim : String → String → ℚ) (variants : Variants)
    (prompt_types : PromptTypes) (window : String) :
    fuzzy_match sim variants prompt_types window
      = ((fuzzyCandidates sim window prompt_types).foldl
          (candStep (fuzzy_threshold variants)) (none, 0)).1 := by
  suffices h : ∀ (l : PromptTypes) (acc : Option String × ℚ),
      l.foldl (fuzzy_step sim (fuzzy_threshold variants) window) acc
        = (fuzzyCandidates sim window l).foldl (candStep (fuzzy_threshold variants)) acc by
    simp only [fuzzy_match, h]
  intro l
  induction l with
  | nil => intro acc; rfl
  | cons p ps ih =>
    intro acc
    have hsplit : fuzzyCandidates sim window (p :: ps)
        = (([p.2.original_signature, p.2.simplified_signature].filter (fun s => s ≠ "")).map
            (fun sig => (p.1, similarity_score sim (pyTake window 200) (pyTake sig 200))))
          ++ fuzzyCandidates sim window ps := by
      simp [fuzzyCandidates]
    rw [List.foldl_cons, fuzzy_step_eq_candFold, hsplit, List.foldl_append, ih]

/-- Characterization of the candidate fold: either no candidate beats
the accumulator (each one is below the threshold or not above the
running best), or the result is the first candidate attaining the
maximal score — every earlier candidate scores strictly less, every
later one no more. -/
theorem candFold_spec (θ : ℚ) (l : List (String × ℚ)) : ∀ (bm : Option String) (bs : ℚ),
    (l.foldl (candStep θ) (bm, bs) = (bm, bs) ∧ ∀ p ∈ l, p.2 < θ ∨ p.2 ≤ bs)
    ∨ (∃ pre t s post, l = pre ++ (t, s) :: post
        ∧ l.foldl (candStep θ) (bm, bs) = (some t, s)
        ∧ θ ≤ s ∧ bs < s
        ∧ (∀ p ∈ pre, p.2 < s) ∧ (∀ p ∈ post, p.2 ≤ s)) := by
  induction l with
  | nil =>
    intro bm bs
    left
    exact ⟨rfl, by simp⟩
  | cons hd tl ih =>
    intro bm bs
    obtain ⟨t0, s0⟩ := hd
    by_cases hcond : bs < s0 ∧ θ ≤ s0
    · have hstep : candStep θ (bm, bs) (t0, s0) = (some t0, s0) := by
        simp [candStep, hcond]
      rcases ih (some t0) s0 with ⟨heq, hall⟩ |
        ⟨pre, t, s, post, hsplit, hfold, hθ, hlt, hpre, hpost⟩
      · right
        refine ⟨[], t0, s0, tl, by simp, ?_, hcond.2, hcond.1, by simp, ?_⟩
        · rw [List.foldl_cons, hstep, heq]
        · intro p hp
          rcases hall p hp with h | h
          · exact le_of_lt (lt_of_lt_of_le h hcond.2)
          · exact h
      · right
        refine ⟨(t0, s0) :: pre, t, s, post, by simp [hsplit], ?_, hθ,
          lt_trans hcond.1 hlt, ?_, hpost⟩
        · rw [List.foldl_cons, hstep, hfold]
        · intro p hp
          rcases List.mem_cons.mp hp with h | h
          · subst h
            exact hlt
          · exact hpre p h
    · have hstep : candStep θ (bm, bs) (t0, s0) = (bm, bs) := by
        simp only [candStep, if_neg hcond]
      have hns : s0 < θ ∨ s0 ≤ bs := by
        rcases not_and_or.mp hcond with h | h
        · exact Or.inr (not_lt.mp h)
        · exact Or.inl (not_le.mp h)
      rcases ih bm bs with ⟨heq, hall⟩ |
        ⟨pre, t, s, post, hsplit, hfold, hθ, hlt, hpre, hpost⟩
      · left
        constructor
        · rw [List.foldl_cons, hstep, heq]
        · intro p hp
          rcases List.mem_cons.mp hp with h | h
          · subst h
            exact hns
          · exact hall p h
      · right
        refine ⟨(t0, s0) :: pre, t, s, post, by simp [hsplit], ?_, hθ, hlt, ?_, hpost⟩
        · rw [List.foldl_cons, hstep, hfold]
        · intro p hp
          rcases List.mem_cons.mp hp with h | h
          · subst h
            rcases hns with h | h
            · exact lt_of_lt_of_le h hθ
            · exact lt_of_le_of_lt h hlt
          · exact hpre p h

set_option maxRecDepth 8000 in
/-- Counterexample to the configuration shape stated by C9: the enabling flag is not
read from per-prompt-type variants entries.  A per-type entry carrying
the claimed `\x7bpatterns, fuzzy_matching\x7d` shape (with fuzzy matching
enabled and a perfect similarity score available) does not trigger the
fuzzy tier, and the content stays unknown; the identical configuration
stored under the single top-level `"fuzzy_matching"` key does trigger
it. -/
theorem c9_counterexample :
    find_matching_prompt_type eq_ratio
        [("tA", { patterns := [],
                  fuzzyMatching := some { enabled := some true,
                                          minSimilarityThreshold := some (mkRat 1 2) } })]
        [("tA", { original_signature := "qqq" })] "qqq" = none
    ∧ find_matching_prompt_type eq_ratio
        [("fuzzy_matching", { enabled := some true, minSimilarityThreshold := some (mkRat 1 2) })]
        [("tA", { original_signature := "qqq" })] "qqq" = some "tA" := by
  exact ⟨by rfl, by rfl⟩

/-- C9, amended: the fuzzy tier is attempted only when the single
top-level `"fuzzy_matching"` entry of the variants mapping enables it
(per-prompt-type entries carry only `patterns`); its threshold defaults
to 0.7 when absent.  When the earlier tiers fail and fuzzy matching is
enabled, it scores the first 200 characters of the content window
against the first 200 characters of the nonempty original and
simplified signatures (the comparisons listed by `fuzzyCandidates`),
and the winner is the first candidate attaining the maximal score,
provided that score is at least the threshold and positive; otherwise
the classifier falls through to the signature-prefix tier. -/
theorem c9_fuzzy_tier_spec (sim : String → String → ℚ) (variants : Variants)
    (prompt_types : PromptTypes) (content : String)
    (h1 : variant_match variants (pyTake (pyLower content) 800) = none)
    (h2 : fixed_pattern_match (pyTake (pyLower content) 800) = none) :
    (fuzzy_enabled variants = false →
      find_matching_prompt_type sim variants prompt_types content
        = signature_match prompt_types (pyTake (pyLower content) 800))
    ∧ (fuzzy_enabled variants = true →
        (∀ t, fuzzy_match sim variants prompt_types (pyTake (pyLower content) 800) = some t →
          find_matching_prompt_type sim variants prompt_types content = some t
          ∧ ∃ pre s post,
              fuzzyCandidates sim (pyTake (pyLower content) 800) prompt_types
                = pre ++ (t, s) :: post
              ∧ fuzzy_threshold variants ≤ s ∧ 0 < s
              ∧ (∀ p ∈ pre, p.2 < s) ∧ (∀ p ∈ post, p.2 ≤ s))
        ∧ (fuzzy_match sim variants prompt_types (pyTake (pyLower content) 800) = none →
          find_matching_prompt_type sim variants prompt_types content
            = signature_match prompt_types (pyTake (pyLower content) 800)
          ∧ ∀ p ∈ fuzzyCandidates sim (pyTake (pyLower content) 800) prompt_types,
              p.2 < fuzzy_threshold variants ∨ p.2 ≤ 0))
    ∧ (variants.lookup "fuzzy_matching" = none → fuzzy_threshold variants = 7/10)
    ∧ (∀ e, variants.lookup "fuzzy_matching" = some e → e.minSimilarityThreshold = none →
        fuzzy_threshold variants = 7/10) := by
  refine ⟨?_, ?_, ?_, ?_⟩
  · intro hen
    simp only [find_matching_prompt_type]
    rw [h1, h2, hen]
    simp
  · intro hen
    constructor
    · intro t hft
      constructor
      · simp only [find_matching_prompt_type]
        rw [h1, h2, hen]
        simp [hft]
      · have heq := fuzzy_match_eq_candFold sim variants prompt_types
          (pyTake (pyLower content) 800)
        rw [heq] at hft
        rcases candFold_spec (fuzzy_threshold variants)
            (fuzzyCandidates sim (pyTake (pyLower content) 800) prompt_types) none 0 with
          ⟨hfold, _⟩ | ⟨pre, t', s, post, hsplit, hfold, hθ, hpos, hpre, hpost⟩
        · rw [hfold] at hft
          simp at hft
        · rw [hfold] at hft
          have ht : t' = t := by simpa using hft
          subst ht
          exact ⟨pre, s, post, hsplit, hθ, hpos, hpre, hpost⟩
    · intro hft
      constructor
      · simp only [find_matching_prompt_type]
        rw [h1, h2, hen]
        simp [hft]
      · have heq := fuzzy_match_eq_candFold sim variants prompt_types
          (pyTake (pyLower content) 800)
        rw [heq] at hft
        rcases candFold_spec (fuzzy_threshold variants)
            (fuzzyCandidates sim (pyTake (pyLower content) 800) prompt_types) none 0 with
          ⟨hfold, hall⟩ | ⟨pre, t', s, post, hsplit, hfold, hθ, hpos, hpre, hpost⟩
        · exact hall
        · rw [hfold] at hft
          simp at hft
  · intro hnone
    simp [fuzzy_threshold, hnone]
  · intro e he hthr
    simp [fuzzy_threshold, he, hthr]

set_option maxRecDepth 8000 in
/-- Witness for C9 (amended): with the top-level entry enabling fuzzy
matching at threshold one half and a perfect score on type `tA`, the
classifier returns `tA` through the fuzzy tier. -/
theorem c9_witness :
    find_matching_prompt_type eq_ratio
        [("fuzzy_matching", { enabled := some true, minSimilarityThreshold := some (mkRat 1 2) })]
        [("tA", { original_signature := "qqq" })] "qqq" = some "tA" :=
  (((c9_fuzzy_tier_spec eq_ratio
      [("fuzzy_matching", { enabled := some true, minSimilarityThreshold := some (mkRat 1 2) })]
      [("tA", { original_signature := "qqq" })] "qqq" (by rfl) (by rfl)).2.1
    (by rfl)).1 "tA" (by rfl)).1
